import Mathlib

/-!
Verification of the `digson.py` JSON schema walker (CellDynamics/QuimP-Python).

The walker (`Parser` in `src/digson.py`) recursively visits a parsed JSON
object, classifies every field, recurses into nested objects (directly or
through the sampled first element of an array chain), and writes PlantUML
text to an output handle.  We embed the walker shallowly:

* `Json` is the parsed JSON tree (`json.load` output restricted to the
  Python types the walker inspects: `NoneType`, `bool`, `int`, `str`,
  `list`, `dict`).
* `unravel` is `Parser._unravel`.
* `parserInit` is `Parser.__init__` (which runs `decode` and
  `_write_block`); `decodeFields` is the loop body of `Parser.decode`.
* `create` is `Parser.create` (writes the `@startuml` framing marker and
  constructs the root instance with instance number 0 and name `root`).

Writes to the output handle are modelled as an ordered list of `Event`s
(one event per `_handle.write`-ing helper call); `logger.debug` lines are
collected separately in `logs`; the class-level nesting counter
`Parser._level` is threaded through as explicit state; Python exceptions
(`TypeError` from unpacking `None`, `AttributeError` from calling `.keys()`
on a non-dict) become an `err : Option PyErr` field that, once set, stops
all further processing, while the events already written remain in the
sink.  Each constructed `Parser` records its `(rootname, instance)` pair in
`visits`, in construction (pre-order) sequence, mirroring the
`self._instance = instance` assignment.
-/

/-- Parsed JSON value, as produced by Python's `json.load` (numbers
restricted to `int`; the walker never inspects numeric values, only their
runtime type). Object fields keep insertion order, as Python dicts do. -/
inductive Json where
  | null
  | bool (b : Bool)
  | num (n : Int)
  | str (s : String)
  | arr (elems : List Json)
  | obj (fields : List (String × Json))

/-- Python's `type(v).__name__` for the values a parsed JSON tree can hold. -/
def typeName : Json → String
  | .null => "NoneType"
  | .bool _ => "bool"
  | .num _ => "int"
  | .str _ => "str"
  | .arr _ => "list"
  | .obj _ => "dict"

/-- `type(v) is list` in Python. -/
def Json.isArr : Json → Bool
  | .arr _ => true
  | _ => false

/-- `type(v) is dict` in Python. -/
def Json.isObj : Json → Bool
  | .obj _ => true
  | _ => false

/-- A primitive (scalar or null) value: neither a list nor a dict. -/
def isPrim (v : Json) : Bool := !v.isArr && !v.isObj

/-- The `while` loop of `Parser._unravel`: `_l` starts as `data` and `lev`
as the accumulator; while `_l` is a non-empty list, `_l = _l[0]` and
`lev += 1`.  Afterwards, if `_l` is a (necessarily empty) list the
function returns `None`, else the triple `(_l, type(_l), lev)`; the type
component is recomputed from the element, so we return just `(_l, lev)`. -/
def unravelGo : Json → Nat → Option (Json × Nat)
  | .arr (x :: _), lev => unravelGo x (lev + 1)
  | .arr [], _ => none
  | v, lev => some (v, lev)

/-- `Parser._unravel(data)`: find the element type of nested lists. -/
def unravel (data : Json) : Option (Json × Nat) := unravelGo data 0

theorem unravelGo_sizeOf_le :
    ∀ (d : Json) (n : Nat) (el : Json) (lev : Nat),
      unravelGo d n = some (el, lev) → sizeOf el ≤ sizeOf d
  | .arr (x :: xs), n, el, lev, h => by
    have ih := unravelGo_sizeOf_le x (n + 1) el lev (by simpa [unravelGo] using h)
    have hx : sizeOf x < sizeOf (Json.arr (x :: xs)) := by
      simp [Json.arr.sizeOf_spec]
      omega
    omega
  | .null, n, el, lev, h => by
    simp [unravelGo] at h
    obtain ⟨rfl, rfl⟩ := h
    omega
  | .bool b, n, el, lev, h => by
    simp [unravelGo] at h
    obtain ⟨rfl, rfl⟩ := h
    omega
  | .num m, n, el, lev, h => by
    simp [unravelGo] at h
    obtain ⟨rfl, rfl⟩ := h
    omega
  | .str s, n, el, lev, h => by
    simp [unravelGo] at h
    obtain ⟨rfl, rfl⟩ := h
    omega
  | .obj fs, n, el, lev, h => by
    simp [unravelGo] at h
    obtain ⟨rfl, rfl⟩ := h
    omega

theorem unravel_sizeOf_lt (xs : List Json) (el : Json) (lev : Nat)
    (h : unravel (.arr xs) = some (el, lev)) : sizeOf el < sizeOf (Json.arr xs) := by
  match xs with
  | [] => simp [unravel, unravelGo] at h
  | x :: xs' =>
    have h1 : unravelGo x 1 = some (el, lev) := by simpa [unravel, unravelGo] using h
    have := unravelGo_sizeOf_le x 1 el lev h1
    have hx : sizeOf x < sizeOf (Json.arr (x :: xs')) := by
      simp [Json.arr.sizeOf_spec]
      omega
    omega

/-- One write to the PlantUML output handle, by writing helper:
`begin` is the `@startuml` line of `Parser.create`; `connection` is one
`Parser._write_connection(source, dest, connection, note)` call (the note
is `""` when absent); `block` is one `Parser._write_block()` call, writing
the class block of `name` with one `+key : desctype` line per field. -/
inductive Event where
  | begin
  | connection (source dest conn note : String)
  | block (name : String) (fields : List (String × String))
deriving DecidableEq

/-- The Python exceptions the walker can raise: the `TypeError` from
unpacking the `None` returned by `_unravel` on an empty array chain, and
the `AttributeError` from calling `.keys()` on a non-dict value. -/
inductive PyErr where
  | typeError (msg : String)
  | attributeError (msg : String)
deriving DecidableEq

/-- Observable outcome of running (part of) the walker: the events written
to the handle so far, the `logger.debug` lines, the class-level nesting
counter `Parser._level` after the run, the first uncaught exception (which
aborts all further processing), and the `(rootname, instance)` pairs of the
`Parser` objects constructed, in construction (pre-order) sequence. -/
structure Emit where
  events : List Event
  logs : List String
  level : Nat
  err : Option PyErr
  visits : List (String × Nat)

/-- Python's `"[]" * n`. -/
def brackets (n : Nat) : String := String.join (List.replicate n "[]")

mutual

/-- `Parser.__init__(qjson, inst, rootname)` with the class counter
`Parser._level` threaded in as `level`.  For a dict it computes the keys,
bumps `_level`, runs `decode()` (which may replace entries of `_desctype`
and recursively construct child `Parser`s) and finally `_write_block()`;
for any other value the `self._root.keys()` call on line 36 of
`digson.py` raises `AttributeError` before the instance number is
assigned or anything is written. -/
def parserInit (qjson : Json) (inst : Nat) (rootname : String) (level : Nat) : Emit :=
  match qjson with
  | .obj fields =>
    let r := decodeFields fields inst rootname (level + 1)
    match r.2.err with
    | some e =>
      { events := r.2.events, logs := r.2.logs, level := r.2.level, err := some e,
        visits := (rootname, inst) :: r.2.visits }
    | none =>
      { events := r.2.events ++ [Event.block rootname ((fields.map Prod.fst).zip r.1)],
        logs := r.2.logs, level := r.2.level, err := none,
        visits := (rootname, inst) :: r.2.visits }
  | v =>
    { events := [], logs := [], level := level,
      err := some (.attributeError (typeName v ++ " object has no attribute keys")),
      visits := [] }
termination_by sizeOf qjson
decreasing_by
  all_goals first
    | (simp; omega)
    | simp

/-- The `for` loop of `Parser.decode()` over the remaining fields,
returning the final `_desctype` entries for those fields together with the
emitted output.  A dict field constructs a child `Parser` on the field's
value and then writes a `--` connection; a list field is unravelled: an
empty chain raises the `TypeError` of unpacking `None`, a dict element
constructs a child `Parser` on the sampled element and writes a `..`
connection with an `el[]…[0]` note, a primitive element only rewrites the
`_desctype` entry; any exception stops the loop (and the enclosing
`__init__`) immediately. -/
def decodeFields (fields : List (String × Json)) (inst : Nat) (rootname : String)
    (level : Nat) : List String × Emit :=
  match fields with
  | [] => ([], { events := [], logs := [], level := level, err := none, visits := [] })
  | (k, v) :: rest =>
    let lg := "Key " ++ k ++ " type " ++ typeName v ++ " level " ++ toString level
    match v with
    | .obj cf =>
      let c := parserInit (.obj cf) (inst + 1) k level
      match c.err with
      | some e =>
        (["dict"],
         { events := c.events, logs := lg :: c.logs, level := c.level, err := some e,
           visits := c.visits })
      | none =>
        let r := decodeFields rest inst rootname c.level
        ("dict" :: r.1,
         { events := c.events ++ [Event.connection rootname k "--" ""] ++ r.2.events,
           logs := lg :: (c.logs ++ r.2.logs),
           level := r.2.level, err := r.2.err,
           visits := c.visits ++ r.2.visits })
    | .arr xs =>
      match h : unravel (.arr xs) with
      | none =>
        (["list"],
         { events := [], logs := [lg], level := level,
           err := some (.typeError "cannot unpack non-iterable NoneType object"),
           visits := [] })
      | some (.obj cf, lev) =>
        let c := parserInit (.obj cf) (inst + 1) k level
        match c.err with
        | some e =>
          (["list" ++ brackets (lev - 1) ++ "[dict]"],
           { events := c.events, logs := lg :: c.logs, level := c.level, err := some e,
             visits := c.visits })
        | none =>
          let r := decodeFields rest inst rootname c.level
          (("list" ++ brackets (lev - 1) ++ "[dict]") :: r.1,
           { events := c.events ++
               [Event.connection rootname k ".." ("el" ++ brackets (lev - 1) ++ "[0]")] ++
               r.2.events,
             logs := lg :: (c.logs ++ r.2.logs),
             level := r.2.level, err := r.2.err,
             visits := c.visits ++ r.2.visits })
      | some (el, lev) =>
        let r := decodeFields rest inst rootname level
        (("list" ++ brackets (lev - 1) ++ "[" ++ typeName el ++ "]") :: r.1,
         { r.2 with
           logs := lg :: ("List type " ++ typeName el ++ ", lev " ++ toString lev) :: r.2.logs })
    | w =>
      let r := decodeFields rest inst rootname level
      (typeName w :: r.1, { r.2 with logs := lg :: r.2.logs })
termination_by sizeOf fields
decreasing_by
  all_goals first
    | (have hlt := unravel_sizeOf_lt xs (.obj cf) lev h
       simp at hlt ⊢
       omega)
    | (simp; omega)
    | simp

end

/-- `Parser.create(qjson, handle)`: write the `@startuml` framing marker,
then construct the root `Parser` with instance number `0` and name
`root`.  The class counter `Parser._level` (which a previous run may have
left non-zero) is passed in as `level`. -/
def create (qjson : Json) (level : Nat) : Emit :=
  let r := parserInit qjson 0 "root" level
  { r with events := Event.begin :: r.events }

/-- Is this event a class block (one `StructuralRecord`)? -/
def Event.isBlock : Event → Bool
  | .block _ _ => true
  | _ => false

/-- Is this event a connection (one `ContainmentEdge`)? -/
def Event.isConn : Event → Bool
  | .connection _ _ _ _ => true
  | _ => false

/-- Number of structural records (class blocks) among the events. -/
def countBlocks (es : List Event) : Nat := es.countP Event.isBlock

/-- Number of containment edges (connections) among the events. -/
def countConns (es : List Event) : Nat := es.countP Event.isConn

/-- The `logger.debug` line written at the top of each `decode` iteration. -/
def keyLog (k : String) (v : Json) (lvl : Nat) : String :=
  "Key " ++ k ++ " type " ++ typeName v ++ " level " ++ toString lvl

/- Branch-resolved rewriting forms of `parserInit` and `decodeFields`. -/

theorem parserInit_obj (fields : List (String × Json)) (inst : Nat) (rn : String)
    (lvl : Nat) :
    parserInit (.obj fields) inst rn lvl =
      { events := (decodeFields fields inst rn (lvl + 1)).2.events ++
          (if (decodeFields fields inst rn (lvl + 1)).2.err = none then
            [Event.block rn
              ((fields.map Prod.fst).zip (decodeFields fields inst rn (lvl + 1)).1)]
          else []),
        logs := (decodeFields fields inst rn (lvl + 1)).2.logs,
        level := (decodeFields fields inst rn (lvl + 1)).2.level,
        err := (decodeFields fields inst rn (lvl + 1)).2.err,
        visits := (rn, inst) :: (decodeFields fields inst rn (lvl + 1)).2.visits } := by
  rcases he : (decodeFields fields inst rn (lvl + 1)).2.err with _ | e <;>
    simp [parserInit, he]

theorem parserInit_nonObj (v : Json) (inst : Nat) (rn : String) (lvl : Nat)
    (hv : v.isObj = false) :
    parserInit v inst rn lvl =
      { events := [], logs := [], level := lvl,
        err := some (.attributeError (typeName v ++ " object has no attribute keys")),
        visits := [] } := by
  cases v <;> simp_all [Json.isObj] <;> simp [parserInit]

theorem decodeFields_nil (inst : Nat) (rn : String) (lvl : Nat) :
    decodeFields [] inst rn lvl =
      ([], { events := [], logs := [], level := lvl, err := none, visits := [] }) := by
  simp [decodeFields]

theorem decodeFields_cons_obj (k : String) (cf rest : List (String × Json)) (inst : Nat)
    (rn : String) (lvl : Nat) :
    decodeFields ((k, .obj cf) :: rest) inst rn lvl =
      (if (parserInit (.obj cf) (inst + 1) k lvl).err = none then
        ("dict" :: (decodeFields rest inst rn (parserInit (.obj cf) (inst + 1) k lvl).level).1,
         { events := (parserInit (.obj cf) (inst + 1) k lvl).events ++
             [Event.connection rn k "--" ""] ++
             (decodeFields rest inst rn (parserInit (.obj cf) (inst + 1) k lvl).level).2.events,
           logs := keyLog k (.obj cf) lvl :: ((parserInit (.obj cf) (inst + 1) k lvl).logs ++
             (decodeFields rest inst rn (parserInit (.obj cf) (inst + 1) k lvl).level).2.logs),
           level := (decodeFields rest inst rn (parserInit (.obj cf) (inst + 1) k lvl).level).2.level,
           err := (decodeFields rest inst rn (parserInit (.obj cf) (inst + 1) k lvl).level).2.err,
           visits := (parserInit (.obj cf) (inst + 1) k lvl).visits ++
             (decodeFields rest inst rn (parserInit (.obj cf) (inst + 1) k lvl).level).2.visits })
      else
        (["dict"],
         { events := (parserInit (.obj cf) (inst + 1) k lvl).events,
           logs := keyLog k (.obj cf) lvl :: (parserInit (.obj cf) (inst + 1) k lvl).logs,
           level := (parserInit (.obj cf) (inst + 1) k lvl).level,
           err := (parserInit (.obj cf) (inst + 1) k lvl).err,
           visits := (parserInit (.obj cf) (inst + 1) k lvl).visits })) := by
  rcases he : (parserInit (.obj cf) (inst + 1) k lvl).err with _ | e <;>
    simp [decodeFields, he, keyLog]

theorem decodeFields_cons_arr_none (k : String) (xs : List Json)
    (rest : List (String × Json)) (inst : Nat) (rn : String) (lvl : Nat)
    (h : unravel (.arr xs) = none) :
    decodeFields ((k, .arr xs) :: rest) inst rn lvl =
      (["list"],
       { events := [], logs := [keyLog k (.arr xs) lvl], level := lvl,
         err := some (.typeError "cannot unpack non-iterable NoneType object"),
         visits := [] }) := by
  simp only [decodeFields]
  split <;> simp_all [keyLog]

theorem decodeFields_cons_arr_obj (k : String) (xs : List Json)
    (cf rest : List (String × Json)) (lev : Nat) (inst : Nat) (rn : String) (lvl : Nat)
    (h : unravel (.arr xs) = some (.obj cf, lev)) :
    decodeFields ((k, .arr xs) :: rest) inst rn lvl =
      (if (parserInit (.obj cf) (inst + 1) k lvl).err = none then
        (("list" ++ brackets (lev - 1) ++ "[dict]") ::
           (decodeFields rest inst rn (parserInit (.obj cf) (inst + 1) k lvl).level).1,
         { events := (parserInit (.obj cf) (inst + 1) k lvl).events ++
             [Event.connection rn k ".." ("el" ++ brackets (lev - 1) ++ "[0]")] ++
             (decodeFields rest inst rn (parserInit (.obj cf) (inst + 1) k lvl).level).2.events,
           logs := keyLog k (.arr xs) lvl :: ((parserInit (.obj cf) (inst + 1) k lvl).logs ++
             (decodeFields rest inst rn (parserInit (.obj cf) (inst + 1) k lvl).level).2.logs),
           level := (decodeFields rest inst rn (parserInit (.obj cf) (inst + 1) k lvl).level).2.level,
           err := (decodeFields rest inst rn (parserInit (.obj cf) (inst + 1) k lvl).level).2.err,
           visits := (parserInit (.obj cf) (inst + 1) k lvl).visits ++
             (decodeFields rest inst rn (parserInit (.obj cf) (inst + 1) k lvl).level).2.visits })
      else
        (["list" ++ brackets (lev - 1) ++ "[dict]"],
         { events := (parserInit (.obj cf) (inst + 1) k lvl).events,
           logs := keyLog k (.arr xs) lvl :: (parserInit (.obj cf) (inst + 1) k lvl).logs,
           level := (parserInit (.obj cf) (inst + 1) k lvl).level,
           err := (parserInit (.obj cf) (inst + 1) k lvl).err,
           visits := (parserInit (.obj cf) (inst + 1) k lvl).visits })) := by
  simp only [decodeFields]
  split <;> simp_all [keyLog] <;>
    rcases he : (parserInit (.obj cf) (inst + 1) k lvl).err with _ | e <;>
    simp_all [keyLog]

theorem decodeFields_cons_arr_prim (k : String) (xs : List Json) (el : Json)
    (rest : List (String × Json)) (lev : Nat) (inst : Nat) (rn : String) (lvl : Nat)
    (h : unravel (.arr xs) = some (el, lev)) (hel : el.isObj = false) :
    decodeFields ((k, .arr xs) :: rest) inst rn lvl =
      (("list" ++ brackets (lev - 1) ++ "[" ++ typeName el ++ "]") ::
         (decodeFields rest inst rn lvl).1,
       { decodeFields rest inst rn lvl |>.2 with
         logs := keyLog k (.arr xs) lvl ::
           ("List type " ++ typeName el ++ ", lev " ++ toString lev) ::
           (decodeFields rest inst rn lvl).2.logs }) := by
  simp only [decodeFields]
  split <;> simp_all [keyLog] <;> cases el <;> simp_all [Json.isObj, typeName]

theorem decodeFields_cons_prim (k : String) (v : Json) (rest : List (String × Json))
    (inst : Nat) (rn : String) (lvl : Nat) (hv : isPrim v = true) :
    decodeFields ((k, v) :: rest) inst rn lvl =
      (typeName v :: (decodeFields rest inst rn lvl).1,
       { decodeFields rest inst rn lvl |>.2 with
         logs := keyLog k v lvl :: (decodeFields rest inst rn lvl).2.logs }) := by
  cases v <;> simp_all [isPrim, Json.isObj, Json.isArr] <;> simp [decodeFields, keyLog, typeName]

/-- `decode` over a prefix of primitive-valued fields: the default
`_desctype` entries stay, nothing is written, no child is constructed, and
processing continues with the remaining fields at the same level. -/
theorem decodeFields_prims_append (pre rest : List (String × Json)) (inst : Nat)
    (rn : String) (lvl : Nat) (h : ∀ p ∈ pre, isPrim p.2 = true) :
    decodeFields (pre ++ rest) inst rn lvl =
      ((pre.map fun p => typeName p.2) ++ (decodeFields rest inst rn lvl).1,
       { decodeFields rest inst rn lvl |>.2 with
         logs := (pre.map fun p => keyLog p.1 p.2 lvl) ++
           (decodeFields rest inst rn lvl).2.logs }) := by
  induction pre with
  | nil => simp
  | cons p pre ih =>
    obtain ⟨k, v⟩ := p
    have hv : isPrim v = true := h (k, v) (by simp)
    have hpre : ∀ q ∈ pre, isPrim q.2 = true := fun q hq => h q (by simp [hq])
    rw [List.cons_append, decodeFields_cons_prim k v (pre ++ rest) inst rn lvl hv, ih hpre]
    simp

/-- `decode` over fields that are all primitive. -/
theorem decodeFields_prims (fs : List (String × Json)) (inst : Nat) (rn : String)
    (lvl : Nat) (h : ∀ p ∈ fs, isPrim p.2 = true) :
    decodeFields fs inst rn lvl =
      (fs.map fun p => typeName p.2,
       { events := [], logs := fs.map fun p => keyLog p.1 p.2 lvl, level := lvl,
         err := none, visits := [] }) := by
  have := decodeFields_prims_append fs [] inst rn lvl h
  simpa [decodeFields_nil] using this

/-- `__init__` on an object all of whose fields are primitive: exactly one
block is written, with one `key : typeName` line per field in order. -/
theorem parserInit_prims (fs : List (String × Json)) (inst : Nat) (rn : String)
    (lvl : Nat) (h : ∀ p ∈ fs, isPrim p.2 = true) :
    parserInit (.obj fs) inst rn lvl =
      { events := [Event.block rn (fs.map fun p => (p.1, typeName p.2))],
        logs := fs.map fun p => keyLog p.1 p.2 (lvl + 1), level := lvl + 1,
        err := none, visits := [(rn, inst)] } := by
  rw [parserInit_obj, decodeFields_prims fs inst rn (lvl + 1) h]
  simp [List.zip_map']

/-- Along a successful `_unravel` chain the returned element is never a
list, and the counter only grows from its starting value. -/
theorem unravelGo_result :
    ∀ (d : Json) (n : Nat) (el : Json) (lev : Nat),
      unravelGo d n = some (el, lev) → el.isArr = false ∧ n ≤ lev
  | .arr (x :: xs), n, el, lev, h => by
    have ih := unravelGo_result x (n + 1) el lev (by simpa [unravelGo] using h)
    exact ⟨ih.1, by omega⟩
  | .null, n, el, lev, h => by
    simp [unravelGo] at h
    obtain ⟨rfl, rfl⟩ := h
    exact ⟨rfl, le_rfl⟩
  | .bool b, n, el, lev, h => by
    simp [unravelGo] at h
    obtain ⟨rfl, rfl⟩ := h
    exact ⟨rfl, le_rfl⟩
  | .num m, n, el, lev, h => by
    simp [unravelGo] at h
    obtain ⟨rfl, rfl⟩ := h
    exact ⟨rfl, le_rfl⟩
  | .str s, n, el, lev, h => by
    simp [unravelGo] at h
    obtain ⟨rfl, rfl⟩ := h
    exact ⟨rfl, le_rfl⟩
  | .obj fs, n, el, lev, h => by
    simp [unravelGo] at h
    obtain ⟨rfl, rfl⟩ := h
    exact ⟨rfl, le_rfl⟩

/-- Claim C1: the spec claims that for a field holding an empty array (or a
nested array whose first-element chain reaches an empty array) the walker
produces no edge and no extra record, leaves the label generic, and the
run does not fail.  The code instead crashes: `_unravel` returns `None`
for an empty chain and `decode` unpacks that `None` into three variables,
raising `TypeError`; no class block is ever written for the object.  This
theorem evaluates the embedded walker at `{"x": []}` and `{"y": [[]]}`:
both runs abort with the `TypeError` and leave only `@startuml` in the
sink. -/
theorem C1_empty_array_crashes :
    ((create (Json.obj [("x", Json.arr [])]) 0).err =
        some (.typeError "cannot unpack non-iterable NoneType object") ∧
      (create (Json.obj [("x", Json.arr [])]) 0).events = [Event.begin]) ∧
    ((create (Json.obj [("y", Json.arr [Json.arr []])]) 0).err =
        some (.typeError "cannot unpack non-iterable NoneType object") ∧
      (create (Json.obj [("y", Json.arr [Json.arr []])]) 0).events = [Event.begin]) := by
  refine ⟨⟨?_, ?_⟩, ⟨?_, ?_⟩⟩ <;>
    simp [create, parserInit, decodeFields, unravel, unravelGo]

/-- Claim C9: for every root value that is not a JSON object (array, string,
number, boolean or null), `create` writes the `@startuml` framing marker
and then fails with `AttributeError` from `self._root.keys()` before any
record or edge is written: the sink holds exactly the opening marker, and
no instance number is ever assigned. -/
theorem C9_non_object_root (v : Json) (lvl : Nat) (hv : v.isObj = false) :
    (create v lvl).events = [Event.begin] ∧
    (create v lvl).err =
      some (.attributeError (typeName v ++ " object has no attribute keys")) ∧
    (create v lvl).visits = [] := by
  simp [create, parserInit_nonObj v 0 "root" lvl hv]

/-- Witness for C9 at the concrete non-object root `3`. -/
theorem C9_non_object_root_witness :
    (create (Json.num 3) 7).events = [Event.begin] ∧
    (create (Json.num 3) 7).err =
      some (.attributeError ("int object has no attribute keys")) ∧
    (create (Json.num 3) 7).visits = [] :=
  C9_non_object_root (Json.num 3) 7 rfl

/-- Counterexample to claim C4: the claim says a flat array (first element already
non-array) unravels with depth 0, but `_unravel([1])` descends once before
testing and returns `lev = 1`. -/
theorem C4_flat_array_depth_one :
    unravel (Json.arr [Json.num 1]) = some (Json.num 1, 1) ∧
    unravel (Json.arr [Json.num 1]) ≠ some (Json.num 1, 0) := by
  constructor
  · simp [unravel, unravelGo]
  · simp [unravel, unravelGo]

/-- Claim C4, amended: `_unravel` repeatedly descends into the first element and
returns the first non-array element together with the number of array
levels descended, counting the descent out of the outermost array as well:
a non-empty array always reports `lev ≥ 1`, and a flat array reports
exactly 1 (one more than the depth convention in the claim; the caller
compensates by printing `lev - 1` bracket pairs). -/
theorem C4_unravel_counts_all_descents :
    (∀ (x : Json) (xs : List Json) (el : Json) (lev : Nat),
        unravel (.arr (x :: xs)) = some (el, lev) → el.isArr = false ∧ 1 ≤ lev) ∧
    (∀ (x : Json) (xs : List Json), x.isArr = false →
        unravel (.arr (x :: xs)) = some (x, 1)) := by
  constructor
  · intro x xs el lev h
    exact unravelGo_result x 1 el lev (by simpa [unravel, unravelGo] using h)
  · intro x xs hx
    cases x <;> simp_all [unravel, unravelGo, Json.isArr]

/-- Witness for C4 amended at the flat array `["s"]` and at `[[2],[3]]`. -/
theorem C4_unravel_counts_all_descents_witness :
    ((Json.num 2).isArr = false ∧ 1 ≤ 2) ∧
    unravel (Json.arr [Json.str "s"]) = some (Json.str "s", 1) :=
  ⟨C4_unravel_counts_all_descents.1 (Json.arr [Json.num 2]) [Json.arr [Json.num 3]]
      (Json.num 2) 2 (by simp [unravel, unravelGo]),
   C4_unravel_counts_all_descents.2 (Json.str "s") [] rfl⟩

/-- Counterexample to claim C3: on the malformed input `{"x": []}` the walker does
not signal a `StructureError` identifying the offending key: there is no
such error type in the code at all.  It raises the generic `TypeError`
produced by unpacking `None`, whose message does not even contain the
character `x`, so the offending key is not identified. -/
theorem C3_no_structure_error :
    (create (Json.obj [("x", Json.arr [])]) 5).err =
      some (.typeError "cannot unpack non-iterable NoneType object") ∧
    ("cannot unpack non-iterable NoneType object".data.contains 'x') = false := by
  constructor
  · simp [create, parserInit, decodeFields, unravel, unravelGo]
  · decide

/-- Claim C3, amended: the only failure the walker itself signals on parsed JSON
input is the generic `TypeError` raised when `decode` unpacks the `None`
that `_unravel` returns for an empty array chain.  The error carries a
fixed message naming neither key nor path, the enclosing object is
abandoned (its class block is never written, fields after the offending
one are not processed), and the exception propagates unchanged through
`create` to the top-level caller. -/
theorem C3_typeerror_propagates (pre : List (String × Json)) (k : String)
    (rest : List (String × Json)) (lvl : Nat)
    (hpre : ∀ p ∈ pre, isPrim p.2 = true) :
    (create (.obj (pre ++ (k, .arr []) :: rest)) lvl).err =
      some (.typeError "cannot unpack non-iterable NoneType object") ∧
    (create (.obj (pre ++ (k, .arr []) :: rest)) lvl).events = [Event.begin] := by
  have hu : unravel (.arr ([] : List Json)) = none := by simp [unravel, unravelGo]
  constructor <;>
    simp [create, parserInit_obj, decodeFields_prims_append pre _ 0 "root" (lvl + 1) hpre,
      decodeFields_cons_arr_none k [] rest 0 "root" (lvl + 1) hu]

/-- Witness for C3 amended: an empty-array field after a primitive field,
with a further field behind it. -/
theorem C3_typeerror_propagates_witness :
    (create (.obj [("a", Json.num 1), ("x", Json.arr []), ("z", Json.str "s")]) 4).err =
      some (.typeError "cannot unpack non-iterable NoneType object") ∧
    (create (.obj [("a", Json.num 1), ("x", Json.arr []), ("z", Json.str "s")]) 4).events =
      [Event.begin] :=
  C3_typeerror_propagates [("a", Json.num 1)] "x" [("z", Json.str "s")] 4
    (by intro p hp; simp at hp; subst hp; rfl)

/-- Counterexample to claim C6: for `{"b": {"c": "x"}}` the child's class block is
written to the sink before the `root -- b` connection (the code recurses
first, on line 69 of `digson.py`, and only then calls `_write_connection`
on line 70), so the Direct edge does not precede the records of the
child's subtree. -/
theorem C6_edge_emitted_after_child :
    (create (Json.obj [("b", Json.obj [("c", Json.str "x")])]) 0).events =
      [Event.begin, Event.block "b" [("c", "str")],
       Event.connection "root" "b" "--" "", Event.block "root" [("b", "dict")]] ∧
    (create (Json.obj [("b", Json.obj [("c", Json.str "x")])]) 0).events.indexOf
        (Event.block "b" [("c", "str")]) <
      (create (Json.obj [("b", Json.obj [("c", Json.str "x")])]) 0).events.indexOf
        (Event.connection "root" "b" "--" "") := by
  have h : (create (Json.obj [("b", Json.obj [("c", Json.str "x")])]) 0).events =
      [Event.begin, Event.block "b" [("c", "str")],
       Event.connection "root" "b" "--" "", Event.block "root" [("b", "dict")]] := by
    simp [create, parserInit, decodeFields, typeName]
  refine ⟨h, ?_⟩
  rw [h]
  decide

/-- Claim C6, amended: for a field holding an object, the walker emits the Direct
containment edge `(name -- k)` immediately after the child's whole subtree
has been emitted (not before it), and the enclosing object's own record
follows after all of its fields are processed. -/
theorem C6_edge_between_child_and_parent :
    (∀ (k : String) (cf rest : List (String × Json)) (inst : Nat) (rn : String)
        (lvl : Nat), (parserInit (.obj cf) (inst + 1) k lvl).err = none →
        (decodeFields ((k, .obj cf) :: rest) inst rn lvl).2.events =
          (parserInit (.obj cf) (inst + 1) k lvl).events ++
          [Event.connection rn k "--" ""] ++
          (decodeFields rest inst rn
            (parserInit (.obj cf) (inst + 1) k lvl).level).2.events) ∧
    (∀ (fields : List (String × Json)) (inst : Nat) (rn : String) (lvl : Nat),
        (decodeFields fields inst rn (lvl + 1)).2.err = none →
        (parserInit (.obj fields) inst rn lvl).events =
          (decodeFields fields inst rn (lvl + 1)).2.events ++
          [Event.block rn ((fields.map Prod.fst).zip
            (decodeFields fields inst rn (lvl + 1)).1)]) := by
  constructor
  · intro k cf rest inst rn lvl h
    rw [decodeFields_cons_obj]
    simp [h]
  · intro fields inst rn lvl h
    rw [parserInit_obj]
    simp [h]

/-- Witness for C6 amended at `{"b": {"c": "x"}}` (child `{"c": "x"}`). -/
theorem C6_edge_between_child_and_parent_witness :
    (decodeFields [("b", Json.obj [("c", Json.str "x")])] 0 "root" 1).2.events =
      (parserInit (Json.obj [("c", Json.str "x")]) 1 "b" 1).events ++
      [Event.connection "root" "b" "--" ""] ++
      (decodeFields [] 0 "root"
        (parserInit (Json.obj [("c", Json.str "x")]) 1 "b" 1).level).2.events ∧
    (parserInit (Json.obj [("b", Json.obj [("c", Json.str "x")])]) 0 "root" 0).events =
      (decodeFields [("b", Json.obj [("c", Json.str "x")])] 0 "root" 1).2.events ++
      [Event.block "root" (([("b", Json.obj [("c", Json.str "x")])].map Prod.fst).zip
        (decodeFields [("b", Json.obj [("c", Json.str "x")])] 0 "root" 1).1)] :=
  ⟨C6_edge_between_child_and_parent.1 "b" [("c", Json.str "x")] [] 0 "root" 1
      (by simp [parserInit, decodeFields]),
   C6_edge_between_child_and_parent.2 [("b", Json.obj [("c", Json.str "x")])] 0 "root" 0
      (by simp [parserInit, decodeFields])⟩

/-- Claim C5: for a JSON object with exactly one nested (flat) object field and
otherwise primitive fields, the walker emits exactly two class blocks —
the child's first, then the parent's — and exactly one Direct (`--`)
connection `root -- k` naming the child's field, placed between them. -/
theorem C5_one_object_field (pre post cf : List (String × Json)) (k : String) (lvl : Nat)
    (hpre : ∀ p ∈ pre, isPrim p.2 = true) (hpost : ∀ p ∈ post, isPrim p.2 = true)
    (hcf : ∀ p ∈ cf, isPrim p.2 = true) :
    (create (.obj (pre ++ (k, .obj cf) :: post)) lvl).events =
      [Event.begin,
       Event.block k (cf.map fun p => (p.1, typeName p.2)),
       Event.connection "root" k "--" "",
       Event.block "root" ((pre.map fun p => (p.1, typeName p.2)) ++
         (k, "dict") :: (post.map fun p => (p.1, typeName p.2)))] ∧
    countBlocks (create (.obj (pre ++ (k, .obj cf) :: post)) lvl).events = 2 ∧
    countConns (create (.obj (pre ++ (k, .obj cf) :: post)) lvl).events = 1 := by
  have h : (create (.obj (pre ++ (k, .obj cf) :: post)) lvl).events =
      [Event.begin,
       Event.block k (cf.map fun p => (p.1, typeName p.2)),
       Event.connection "root" k "--" "",
       Event.block "root" ((pre.map fun p => (p.1, typeName p.2)) ++
         (k, "dict") :: (post.map fun p => (p.1, typeName p.2)))] := by
    simp only [create]
    rw [parserInit_obj, decodeFields_prims_append pre _ 0 "root" (lvl + 1) hpre,
        decodeFields_cons_obj, parserInit_prims cf 1 k (lvl + 1) hcf]
    simp only []
    rw [decodeFields_prims post 0 "root" (lvl + 1 + 1) hpost]
    simp [List.zip_map', List.zip_append, List.map_append]
  refine ⟨h, ?_, ?_⟩ <;> rw [h] <;>
    simp [countBlocks, countConns, List.countP_cons, Event.isBlock, Event.isConn]

/-- Witness for C5: `{"a": 1, "b": {"c": "x"}, "d": null}`. -/
theorem C5_one_object_field_witness :
    (create (.obj [("a", Json.num 1), ("b", Json.obj [("c", Json.str "x")]),
        ("d", Json.null)]) 0).events =
      [Event.begin,
       Event.block "b" [("c", "str")],
       Event.connection "root" "b" "--" "",
       Event.block "root" [("a", "int"), ("b", "dict"), ("d", "NoneType")]] ∧
    countBlocks (create (.obj [("a", Json.num 1), ("b", Json.obj [("c", Json.str "x")]),
        ("d", Json.null)]) 0).events = 2 ∧
    countConns (create (.obj [("a", Json.num 1), ("b", Json.obj [("c", Json.str "x")]),
        ("d", Json.null)]) 0).events = 1 :=
  C5_one_object_field [("a", Json.num 1)] [("d", Json.null)] [("c", Json.str "x")] "b" 0
    (by intro p hp; simp at hp; subst hp; rfl)
    (by intro p hp; simp at hp; subst hp; rfl)
    (by intro p hp; simp at hp; subst hp; rfl)

/-- `primAtDepthTy d v tn`: `v` is, uniformly, a `d`-fold nesting of
non-empty arrays whose innermost elements are all primitives with Python
type name `tn` (`d = 0` means `v` itself is such a primitive). -/
def primAtDepthTy : Nat → Json → String → Bool
  | 0, v, tn => isPrim v && (typeName v == tn)
  | d + 1, .arr (x :: xs), tn => (x :: xs).all fun e => primAtDepthTy d e tn
  | _ + 1, _, _ => false

/-- Unravelling a uniformly-primitive `d`-fold nesting descends exactly
`d` levels and lands on a primitive of the announced type. -/
theorem primAtDepthTy_unravelGo :
    ∀ (d : Nat) (e : Json) (tn : String) (n : Nat), primAtDepthTy d e tn = true →
      ∃ el, unravelGo e n = some (el, n + d) ∧ isPrim el = true ∧ typeName el = tn := by
  intro d
  induction d with
  | zero =>
    intro e tn n h
    simp [primAtDepthTy] at h
    refine ⟨e, ?_, h.1, by simpa using h.2⟩
    cases e <;> simp_all [unravelGo, isPrim, Json.isArr, Json.isObj]
  | succ d ih =>
    intro e tn n h
    match e with
    | .arr (x :: xs) =>
      simp only [primAtDepthTy, List.all_cons, Bool.and_eq_true, List.all_eq_true] at h
      obtain ⟨el, hel, hp, ht⟩ := ih x tn (n + 1) h.1
      exact ⟨el, by simpa [unravelGo, Nat.add_right_comm n 1 d] using hel, hp, ht⟩
    | .null | .bool _ | .num _ | .str _ | .obj _ | .arr [] =>
      simp [primAtDepthTy] at h

/-- Claim C7: for an array field all of whose elements are primitives of type
`tn` at uniform nesting depth `d` (`d = 0`: a flat array of primitives),
the emitted label for the field is `list` followed by exactly `d` bracket
pairs and the bracketed element type, and the field contributes no
connection and no extra class block: the run emits the enclosing object's
single block only. -/
theorem C7_primitive_array_label (k tn : String) (x : Json) (xs : List Json)
    (d lvl : Nat) (h : ∀ e ∈ x :: xs, primAtDepthTy d e tn = true) :
    (create (.obj [(k, .arr (x :: xs))]) lvl).events =
      [Event.begin,
       Event.block "root" [(k, "list" ++ brackets d ++ "[" ++ tn ++ "]")]] ∧
    countBlocks (create (.obj [(k, .arr (x :: xs))]) lvl).events = 1 ∧
    countConns (create (.obj [(k, .arr (x :: xs))]) lvl).events = 0 := by
  obtain ⟨el, hel, hp, ht⟩ :=
    primAtDepthTy_unravelGo d x tn 1 (h x (by simp))
  have hu : unravel (.arr (x :: xs)) = some (el, 1 + d) := by
    simpa [unravel, unravelGo] using hel
  have helObj : el.isObj = false := by
    cases el <;> simp_all [isPrim, Json.isArr, Json.isObj]
  have hmain : (create (.obj [(k, .arr (x :: xs))]) lvl).events =
      [Event.begin,
       Event.block "root" [(k, "list" ++ brackets d ++ "[" ++ tn ++ "]")]] := by
    simp only [create]
    rw [parserInit_obj,
        decodeFields_cons_arr_prim k (x :: xs) el [] (1 + d) 0 "root" (lvl + 1) hu helObj,
        decodeFields_nil]
    simp [ht, Nat.add_sub_cancel_left]
  refine ⟨hmain, ?_, ?_⟩ <;> rw [hmain] <;>
    simp [countBlocks, countConns, List.countP_cons, Event.isBlock, Event.isConn]

/-- Witness for C7 at `{"f": [[3, 4], [5]]}` (depth 1, element type int):
label `list[][int]`. -/
theorem C7_primitive_array_label_witness :
    (create (.obj [("f", Json.arr [Json.arr [Json.num 3, Json.num 4],
        Json.arr [Json.num 5]])]) 0).events =
      [Event.begin,
       Event.block "root" [("f", "list" ++ brackets 1 ++ "[" ++ "int" ++ "]")]] ∧
    countBlocks (create (.obj [("f", Json.arr [Json.arr [Json.num 3, Json.num 4],
        Json.arr [Json.num 5]])]) 0).events = 1 ∧
    countConns (create (.obj [("f", Json.arr [Json.arr [Json.num 3, Json.num 4],
        Json.arr [Json.num 5]])]) 0).events = 0 :=
  C7_primitive_array_label "f" "int" (Json.arr [Json.num 3, Json.num 4])
    [Json.arr [Json.num 5]] 1 0 (by decide)

/-- Claim C8: for an array field whose first-element chain unravels to a (flat)
object at chain length `lev`, the walker writes exactly one ThroughArray
(`..`) connection, annotated `el[]…[0]` with `lev - 1` bracket pairs, and
exactly one additional class block — the sampled first element's — no
matter how many elements the array or its nested arrays contain (`xs` is
arbitrary here, only its first-element chain matters). -/
theorem C8_array_of_objects (k : String) (xs : List Json) (cf : List (String × Json))
    (lev lvl : Nat) (hu : unravel (.arr xs) = some (.obj cf, lev))
    (hcf : ∀ p ∈ cf, isPrim p.2 = true) :
    (create (.obj [(k, .arr xs)]) lvl).events =
      [Event.begin,
       Event.block k (cf.map fun p => (p.1, typeName p.2)),
       Event.connection "root" k ".." ("el" ++ brackets (lev - 1) ++ "[0]"),
       Event.block "root" [(k, "list" ++ brackets (lev - 1) ++ "[dict]")]] ∧
    countBlocks (create (.obj [(k, .arr xs)]) lvl).events = 2 ∧
    countConns (create (.obj [(k, .arr xs)]) lvl).events = 1 := by
  have hmain : (create (.obj [(k, .arr xs)]) lvl).events =
      [Event.begin,
       Event.block k (cf.map fun p => (p.1, typeName p.2)),
       Event.connection "root" k ".." ("el" ++ brackets (lev - 1) ++ "[0]"),
       Event.block "root" [(k, "list" ++ brackets (lev - 1) ++ "[dict]")]] := by
    simp only [create]
    rw [parserInit_obj, decodeFields_cons_arr_obj k xs cf [] lev 0 "root" (lvl + 1) hu,
        parserInit_prims cf 1 k (lvl + 1) hcf]
    simp only []
    rw [decodeFields_nil]
    simp [List.zip_map']
  refine ⟨hmain, ?_, ?_⟩ <;> rw [hmain] <;>
    simp [countBlocks, countConns, List.countP_cons, Event.isBlock, Event.isConn]

/-- Witness for C8 at `{"d": [{"e": 2}, {"zz": "w"}, 7]}`: three elements,
only the first is sampled; one `..` edge with note `el[0]`, two blocks. -/
theorem C8_array_of_objects_witness :
    (create (.obj [("d", Json.arr [Json.obj [("e", Json.num 2)],
        Json.obj [("zz", Json.str "w")], Json.num 7])]) 0).events =
      [Event.begin,
       Event.block "d" [("e", "int")],
       Event.connection "root" "d" ".." ("el" ++ brackets 0 ++ "[0]"),
       Event.block "root" [("d", "list" ++ brackets 0 ++ "[dict]")]] ∧
    countBlocks (create (.obj [("d", Json.arr [Json.obj [("e", Json.num 2)],
        Json.obj [("zz", Json.str "w")], Json.num 7])]) 0).events = 2 ∧
    countConns (create (.obj [("d", Json.arr [Json.obj [("e", Json.num 2)],
        Json.obj [("zz", Json.str "w")], Json.num 7])]) 0).events = 1 :=
  C8_array_of_objects "d"
    [Json.obj [("e", Json.num 2)], Json.obj [("zz", Json.str "w")], Json.num 7]
    [("e", Json.num 2)] 1 0
    (by simp [unravel, unravelGo])
    (by intro p hp; simp at hp; subst hp; rfl)

/-- Every `Parser` constructed while processing an object with instance
number `inst` records an instance number of at least `inst` (children get
`inst + 1`, where `inst` is the immediate parent's number). -/
theorem visits_ge :
    (∀ (v : Json) (inst : Nat) (rn : String) (lvl : Nat),
        ∀ q ∈ (parserInit v inst rn lvl).visits, inst ≤ q.2) ∧
    (∀ (fs : List (String × Json)) (inst : Nat) (rn : String) (lvl : Nat),
        ∀ q ∈ (decodeFields fs inst rn lvl).2.visits, inst + 1 ≤ q.2) := by
  refine parserInit.mutual_induct
    (fun v inst rn lvl => ∀ q ∈ (parserInit v inst rn lvl).visits, inst ≤ q.2)
    (fun fs inst rn lvl => ∀ q ∈ (decodeFields fs inst rn lvl).2.visits, inst + 1 ≤ q.2)
    ?_ ?_ ?_ ?_ ?_ ?_ ?_ ?_ ?_ ?_ ?_
  · -- object, decode raised
    intro inst rn lvl fields r e hr ih q hq
    rw [parserInit_obj] at hq
    simp only [List.mem_cons] at hq
    rcases hq with rfl | hq
    · simp
    · have := ih q hq
      omega
  · -- object, decode succeeded
    intro inst rn lvl fields r hr ih q hq
    rw [parserInit_obj] at hq
    simp only [List.mem_cons] at hq
    rcases hq with rfl | hq
    · simp
    · have := ih q hq
      omega
  · -- non-object root
    intro qjson inst rn lvl hno q hq
    cases qjson
    case obj fs => exact (hno fs rfl).elim
    all_goals simp [parserInit_nonObj, Json.isObj] at hq
  · -- no fields left
    intro inst rn lvl q hq
    rw [decodeFields_nil] at hq
    simp at hq
  · -- dict field, child raised
    intro inst rn lvl k rest cf c e hc ih q hq
    have hc' : (parserInit (.obj cf) (inst + 1) k lvl).err = some e := hc
    rw [decodeFields_cons_obj] at hq
    simp only [hc', reduceCtorEq, if_neg] at hq
    exact ih q hq
  · -- dict field, child succeeded
    intro inst rn lvl k rest cf c hc ih ih2 q hq
    have hc' : (parserInit (.obj cf) (inst + 1) k lvl).err = none := hc
    rw [decodeFields_cons_obj] at hq
    simp only [hc', if_pos, List.mem_append] at hq
    rcases hq with hq | hq
    · exact ih q hq
    · exact ih2 q hq
  · -- list field, empty chain
    intro inst rn lvl k rest xs hu q hq
    rw [decodeFields_cons_arr_none _ _ _ _ _ _ hu] at hq
    simp at hq
  · -- list of dicts, child raised
    intro inst rn lvl k rest xs cf lev hu c e hc ih q hq
    have hc' : (parserInit (.obj cf) (inst + 1) k lvl).err = some e := hc
    rw [decodeFields_cons_arr_obj _ _ _ _ _ _ _ _ hu] at hq
    simp only [hc', reduceCtorEq, if_neg] at hq
    exact ih q hq
  · -- list of dicts, child succeeded
    intro inst rn lvl k rest xs cf lev hu c hc ih ih2 q hq
    have hc' : (parserInit (.obj cf) (inst + 1) k lvl).err = none := hc
    rw [decodeFields_cons_arr_obj _ _ _ _ _ _ _ _ hu] at hq
    simp only [hc', if_pos, List.mem_append] at hq
    rcases hq with hq | hq
    · exact ih q hq
    · exact ih2 q hq
  · -- list of primitives
    intro inst rn lvl k rest xs el lev hne hu ih q hq
    have hel : el.isObj = false := by
      cases el
      case obj cf => exact (hne cf rfl).elim
      all_goals rfl
    rw [decodeFields_cons_arr_prim _ _ _ _ _ _ _ _ hu hel] at hq
    exact ih q hq
  · -- primitive field
    intro inst rn lvl k rest w hno hna ih q hq
    have hw : isPrim w = true := by
      cases w
      case obj cf => exact (hno cf rfl).elim
      case arr xs => exact (hna xs rfl).elim
      all_goals rfl
    rw [decodeFields_cons_prim _ _ _ _ _ _ hw] at hq
    exact ih q hq

/-- Shifting the initial value of the class-level counter `Parser._level`
by `d` shifts its final value by `d` and changes nothing else observable:
the events written, the error raised, and the recorded instance numbers
are all unchanged (only the `logs`, which print the level, may differ). -/
theorem level_shift :
    (∀ (v : Json) (inst : Nat) (rn : String) (lvl : Nat), ∀ d : Nat,
        (parserInit v inst rn (lvl + d)).events = (parserInit v inst rn lvl).events ∧
        (parserInit v inst rn (lvl + d)).err = (parserInit v inst rn lvl).err ∧
        (parserInit v inst rn (lvl + d)).visits = (parserInit v inst rn lvl).visits ∧
        (parserInit v inst rn (lvl + d)).level = (parserInit v inst rn lvl).level + d) ∧
    (∀ (fs : List (String × Json)) (inst : Nat) (rn : String) (lvl : Nat), ∀ d : Nat,
        (decodeFields fs inst rn (lvl + d)).1 = (decodeFields fs inst rn lvl).1 ∧
        (decodeFields fs inst rn (lvl + d)).2.events = (decodeFields fs inst rn lvl).2.events ∧
        (decodeFields fs inst rn (lvl + d)).2.err = (decodeFields fs inst rn lvl).2.err ∧
        (decodeFields fs inst rn (lvl + d)).2.visits = (decodeFields fs inst rn lvl).2.visits ∧
        (decodeFields fs inst rn (lvl + d)).2.level = (decodeFields fs inst rn lvl).2.level + d) := by
  refine parserInit.mutual_induct
    (fun v inst rn lvl => ∀ d : Nat,
        (parserInit v inst rn (lvl + d)).events = (parserInit v inst rn lvl).events ∧
        (parserInit v inst rn (lvl + d)).err = (parserInit v inst rn lvl).err ∧
        (parserInit v inst rn (lvl + d)).visits = (parserInit v inst rn lvl).visits ∧
        (parserInit v inst rn (lvl + d)).level = (parserInit v inst rn lvl).level + d)
    (fun fs inst rn lvl => ∀ d : Nat,
        (decodeFields fs inst rn (lvl + d)).1 = (decodeFields fs inst rn lvl).1 ∧
        (decodeFields fs inst rn (lvl + d)).2.events = (decodeFields fs inst rn lvl).2.events ∧
        (decodeFields fs inst rn (lvl + d)).2.err = (decodeFields fs inst rn lvl).2.err ∧
        (decodeFields fs inst rn (lvl + d)).2.visits = (decodeFields fs inst rn lvl).2.visits ∧
        (decodeFields fs inst rn (lvl + d)).2.level = (decodeFields fs inst rn lvl).2.level + d)
    ?_ ?_ ?_ ?_ ?_ ?_ ?_ ?_ ?_ ?_ ?_
  · -- object, decode raised
    intro inst rn lvl fields r e hr ih d
    obtain ⟨h1, h2, h3, h4, h5⟩ := ih d
    have e1 : lvl + 1 + d = lvl + d + 1 := by omega
    rw [e1] at h1 h2 h3 h4 h5
    rw [parserInit_obj, parserInit_obj]
    simp [h1, h2, h3, h4, h5]
  · -- object, decode succeeded
    intro inst rn lvl fields r hr ih d
    obtain ⟨h1, h2, h3, h4, h5⟩ := ih d
    have e1 : lvl + 1 + d = lvl + d + 1 := by omega
    rw [e1] at h1 h2 h3 h4 h5
    rw [parserInit_obj, parserInit_obj]
    simp [h1, h2, h3, h4, h5]
  · -- non-object root
    intro qjson inst rn lvl hno d
    cases qjson
    case obj fs => exact (hno fs rfl).elim
    all_goals simp [parserInit_nonObj, Json.isObj]
  · -- no fields left
    intro inst rn lvl d
    simp [decodeFields_nil]
  · -- dict field, child raised
    intro inst rn lvl k rest cf c e hc ih d
    have hceq : c = parserInit (.obj cf) (inst + 1) k lvl := rfl
    rw [hceq] at hc
    obtain ⟨g1, g2, g3, g4⟩ := ih d
    rw [decodeFields_cons_obj, decodeFields_cons_obj]
    simp [g1, g2, g3, g4, hc]
  · -- dict field, child succeeded
    intro inst rn lvl k rest cf c hc ih ih2 d
    have hceq : c = parserInit (.obj cf) (inst + 1) k lvl := rfl
    rw [hceq] at hc
    rw [hceq] at ih2
    obtain ⟨g1, g2, g3, g4⟩ := ih d
    obtain ⟨f1, f2, f3, f4, f5⟩ := ih2 d
    rw [decodeFields_cons_obj, decodeFields_cons_obj]
    simp [g1, g2, g3, g4, hc, f1, f2, f3, f4, f5]
  · -- list field, empty chain
    intro inst rn lvl k rest xs hu d
    rw [decodeFields_cons_arr_none k xs rest inst rn (lvl + d) hu,
        decodeFields_cons_arr_none k xs rest inst rn lvl hu]
    simp
  · -- list of dicts, child raised
    intro inst rn lvl k rest xs cf lev hu c e hc ih d
    have hceq : c = parserInit (.obj cf) (inst + 1) k lvl := rfl
    rw [hceq] at hc
    obtain ⟨g1, g2, g3, g4⟩ := ih d
    rw [decodeFields_cons_arr_obj k xs cf rest lev inst rn (lvl + d) hu,
        decodeFields_cons_arr_obj k xs cf rest lev inst rn lvl hu]
    simp [g1, g2, g3, g4, hc]
  · -- list of dicts, child succeeded
    intro inst rn lvl k rest xs cf lev hu c hc ih ih2 d
    have hceq : c = parserInit (.obj cf) (inst + 1) k lvl := rfl
    rw [hceq] at hc
    rw [hceq] at ih2
    obtain ⟨g1, g2, g3, g4⟩ := ih d
    obtain ⟨f1, f2, f3, f4, f5⟩ := ih2 d
    rw [decodeFields_cons_arr_obj k xs cf rest lev inst rn (lvl + d) hu,
        decodeFields_cons_arr_obj k xs cf rest lev inst rn lvl hu]
    simp [g1, g2, g3, g4, hc, f1, f2, f3, f4, f5]
  · -- list of primitives
    intro inst rn lvl k rest xs el lev hne hu ih d
    have hel : el.isObj = false := by
      cases el
      case obj cf => exact (hne cf rfl).elim
      all_goals rfl
    obtain ⟨f1, f2, f3, f4, f5⟩ := ih d
    rw [decodeFields_cons_arr_prim k xs el rest lev inst rn (lvl + d) hu hel,
        decodeFields_cons_arr_prim k xs el rest lev inst rn lvl hu hel]
    simp [f1, f2, f3, f4, f5]
  · -- primitive field
    intro inst rn lvl k rest w hno hna ih d
    have hw : isPrim w = true := by
      cases w
      case obj cf => exact (hno cf rfl).elim
      case arr xs => exact (hna xs rfl).elim
      all_goals rfl
    obtain ⟨f1, f2, f3, f4, f5⟩ := ih d
    rw [decodeFields_cons_prim k w rest inst rn (lvl + d) hw,
        decodeFields_cons_prim k w rest inst rn lvl hw]
    simp [f1, f2, f3, f4, f5]

/-- Counterexample to claim C2: the code passes `self._instance + 1` to every
child, so for `{"a": {}, "b": {}}` both children receive instance number
1 — the recorded instance numbers are `[0, 1, 1]`, and two distinct
visited objects share a number, contradicting global uniqueness and
strict increase in pre-order. -/
theorem C2_sibling_instances_collide :
    (create (Json.obj [("a", Json.obj []), ("b", Json.obj [])]) 0).visits =
      [("root", 0), ("a", 1), ("b", 1)] ∧
    ¬ ((create (Json.obj [("a", Json.obj []), ("b", Json.obj [])]) 0).visits.map
        Prod.snd).Nodup := by
  have h : (create (Json.obj [("a", Json.obj []), ("b", Json.obj [])]) 0).visits =
      [("root", 0), ("a", 1), ("b", 1)] := by
    simp [create, parserInit, decodeFields]
  refine ⟨h, ?_⟩
  rw [h]
  decide

/-- Claim C2, amended: the root is visited with instance number 0, and every
other visited object receives its parent's instance number plus one, so
all non-root instance numbers are at least 1 and instance number 0 is
unique to the root; but the numbers are not globally unique — objects at
the same depth (e.g. siblings) repeat them. -/
theorem C2_root_zero_children_positive (fields : List (String × Json)) (lvl : Nat) :
    (create (.obj fields) lvl).visits.head? = some ("root", 0) ∧
    ∀ q ∈ (create (.obj fields) lvl).visits.tail, 1 ≤ q.2 := by
  have hv : (create (.obj fields) lvl).visits =
      ("root", 0) :: (decodeFields fields 0 "root" (lvl + 1)).2.visits := by
    simp only [create]
    rw [parserInit_obj]
  rw [hv]
  exact ⟨rfl, fun q hq => visits_ge.2 fields 0 "root" (lvl + 1) q hq⟩

/-- Witness for C2 amended at `{"a": {}}`. -/
theorem C2_root_zero_children_positive_witness :
    (create (Json.obj [("a", Json.obj [])]) 0).visits.head? = some ("root", 0) ∧
    1 ≤ (("a", 1) : String × Nat).2 :=
  ⟨(C2_root_zero_children_positive [("a", Json.obj [])] 0).1,
   (C2_root_zero_children_positive [("a", Json.obj [])] 0).2 ("a", 1)
     (by simp [create, parserInit, decodeFields])⟩

/-- Claim C10: the events written to the sink, the error outcome, and the
visited instance numbers are a function of the input value alone: two
runs over the same input with different inherited values of the
class-level counter `Parser._level` (e.g. a fresh interpreter vs. one
where earlier runs already incremented it) write the identical sequence
of records and edges.  Only the debug log lines, which print the level,
can differ. -/
theorem C10_output_level_independent (v : Json) (l1 l2 : Nat) :
    (create v l1).events = (create v l2).events ∧
    (create v l1).err = (create v l2).err ∧
    (create v l1).visits = (create v l2).visits := by
  have key : ∀ l : Nat,
      (parserInit v 0 "root" l).events = (parserInit v 0 "root" 0).events ∧
      (parserInit v 0 "root" l).err = (parserInit v 0 "root" 0).err ∧
      (parserInit v 0 "root" l).visits = (parserInit v 0 "root" 0).visits := by
    intro l
    have h := (level_shift.1 v 0 "root" 0) l
    rw [Nat.zero_add] at h
    exact ⟨h.1, h.2.1, h.2.2.1⟩
  have h1 := key l1
  have h2 := key l2
  refine ⟨?_, ?_, ?_⟩ <;>
    simp only [create] <;>
    simp [h1.1, h2.1, h1.2.1, h2.2.1, h1.2.2, h2.2.2]
